import Mathlib

/-!
Shallow embedding of the keypick ranking / aggregation / caching / retention
core (src/api/services/historical_service.py, src/api/models/crawler_config.py,
src/api/services/redis_service.py, src/api/services/supabase_service.py),
with theorems settling the frozen claims about it.

Modelling conventions:
* Python dict items become an `Item` structure of optional fields
  (`item.get(k, d)` becomes `(field).getD d`).
* Python ints are `Int`, true division results are `ℚ`.
* `datetime` values are seconds since the Unix epoch (`Int`); the naive
  `datetime.utcnow()` resolution instant is passed explicitly as `now`.
* `datetime.fromisoformat` is modelled for the `YYYY-MM-DD` and
  `YYYY-MM-DD{T, }HH:MM:SS` shapes that appear in this data; any other
  string is treated as raising `ValueError` (`none`).
* Python's `sorted(items, key=key, reverse=rev)` is a stable sort; any two
  stable sorts over the same key order produce identical output, so it is
  modelled by a stable insertion sort (`pySorted`).
* Python `dict`s (insertion ordered) become association lists, and Python
  `set`s (only ever inspected through `len`) become `Finset String`.
-/

namespace Keypick

/-! ## Stable sort, modelling Python `sorted(items, key=key, reverse=rev)` -/

/-- Insert `x` in front of the first element `y` with `r x y = true`.
With `r` a total preorder test this is the stable-insertion step. -/
def insertBy {α : Type} (r : α → α → Bool) (x : α) : List α → List α
  | [] => [x]
  | y :: ys => if r x y then x :: y :: ys else y :: insertBy r x ys

/-- Stable insertion sort by the Bool comparison `r`. -/
def sortBy {α : Type} (r : α → α → Bool) : List α → List α
  | [] => []
  | x :: xs => insertBy r x (sortBy r xs)

/-- Model of Python `sorted(l, key=key, reverse=rev)`: a stable sort on the
key order, with `reverse=True` comparing in the opposite direction while
still keeping tied elements in input order. -/
def pySorted {α β : Type} (le : β → β → Bool) (key : α → β) (rev : Bool)
    (l : List α) : List α :=
  if rev then sortBy (fun a b => le (key b) (key a)) l
  else sortBy (fun a b => le (key a) (key b)) l

/-- Python `<=` on ints. -/
def intLeB (a b : Int) : Bool := decide (a ≤ b)

/-- Python `<=` on (exact) floats, modelled as rationals. -/
def ratLeB (a b : ℚ) : Bool := decide (a ≤ b)

/-- Python `<=` on strings: lexicographic on code points. -/
def charListLeB : List Char → List Char → Bool
  | [], _ => true
  | _ :: _, [] => false
  | a :: as, b :: bs => if a < b then true else if b < a then false else charListLeB as bs

/-- Python string comparison on the underlying character lists. -/
def strLeB (a b : String) : Bool := charListLeB a.data b.data

/-! ## Python substring test (`needle in hay`) -/

/-- Bool prefix test on character lists. -/
def isPrefixB : List Char → List Char → Bool
  | [], _ => true
  | _ :: _, [] => false
  | a :: as, b :: bs => a == b && isPrefixB as bs

/-- Bool contiguous-sublist test on character lists. -/
def listInB (n : List Char) : List Char → Bool
  | [] => n.isEmpty
  | c :: rest => isPrefixB n (c :: rest) || listInB n rest

/-- Python `needle in hay` for strings. -/
def strIn (needle hay : String) : Bool := listInB needle.data hay.data

/-- Python `s.lower()`, modelled as the per-character ASCII case map
(full Unicode case mapping is outside the model). -/
def pyLower (s : String) : String := (s.data.map Char.toLower).asString

/-- ASCII whitespace test for `strip()`. -/
def isSpaceB (c : Char) : Bool :=
  c == ' ' || c == '\t' || c == '\n' || c == '\r'

/-- Python `s.strip()`: drop whitespace from both ends. -/
def pyStrip (s : String) : String :=
  (((s.data.dropWhile isSpaceB).reverse.dropWhile isSpaceB).reverse).asString

/-- Split a character list on a separator, Python `str.split(sep)` style:
`"a,b" → ["a","b"]`, `"" → [""]`, `"a," → ["a",""]`. -/
def splitCharList (sep : Char) : List Char → List (List Char)
  | [] => [[]]
  | c :: rest =>
    let r := splitCharList sep rest
    if c == sep then [] :: r
    else
      match r with
      | [] => [[c]]
      | h :: t => (c :: h) :: t

/-- Python `s.split(",")`. -/
def pySplitComma (s : String) : List String :=
  (splitCharList ',' s.data).map List.asString

/-! ## Dates: epoch-seconds model of `datetime` -/

/-- Days from civil date (proleptic Gregorian), Unix epoch day 0 =
1970-01-01; Hinnant's `days_from_civil` with floor division. -/
def daysFromCivil (y m d : Int) : Int :=
  let y' := if m ≤ 2 then y - 1 else y
  let era := y'.fdiv 400
  let yoe := y' - era * 400
  let doy := (153 * (if 2 < m then m - 3 else m + 9) + 2).fdiv 5 + d - 1
  let doe := yoe * 365 + yoe.fdiv 4 - yoe.fdiv 100 + doy
  era * 146097 + doe - 719468

/-- Civil date from days since the Unix epoch; Hinnant's `civil_from_days`. -/
def civilFromDays (z0 : Int) : Int × Int × Int :=
  let z := z0 + 719468
  let era := z.fdiv 146097
  let doe := z - era * 146097
  let yoe := (doe - doe.fdiv 1460 + doe.fdiv 36524 - doe.fdiv 146096).fdiv 365
  let y := yoe + era * 400
  let doy := doe - (365 * yoe + yoe.fdiv 4 - yoe.fdiv 100)
  let mp := (5 * doy + 2).fdiv 153
  let d := doy - (153 * mp + 2).fdiv 5 + 1
  let m := if mp < 10 then mp + 3 else mp - 9
  (if m ≤ 2 then y + 1 else y, m, d)

/-- Numeric value of a decimal digit character. -/
def digitVal (c : Char) : Nat := c.toNat - '0'.toNat

/-- Two-digit decimal value. -/
def num2 (a b : Char) : Nat := 10 * digitVal a + digitVal b

/-- Four-digit decimal value. -/
def num4 (a b c d : Char) : Nat :=
  1000 * digitVal a + 100 * digitVal b + 10 * digitVal c + digitVal d

/-- Parse the `YYYY-MM-DD` digit block of an ISO date. -/
def isoDateVal (y1 y2 y3 y4 m1 m2 d1 d2 : Char) : Option (Int × Int × Int) :=
  if ([y1, y2, y3, y4, m1, m2, d1, d2].all Char.isDigit) then
    let y : Int := (num4 y1 y2 y3 y4 : Int)
    let m : Int := (num2 m1 m2 : Int)
    let d : Int := (num2 d1 d2 : Int)
    if 1 ≤ m && m ≤ 12 && 1 ≤ d && d ≤ 31 then some (y, m, d) else none
  else none

/-- Parse the `HH:MM:SS` digit block of an ISO timestamp, as seconds. -/
def isoTimeVal (h1 h2 mi1 mi2 s1 s2 : Char) : Option Int :=
  if ([h1, h2, mi1, mi2, s1, s2].all Char.isDigit) then
    let h := num2 h1 h2
    let mi := num2 mi1 mi2
    let s := num2 s1 s2
    if h ≤ 23 && mi ≤ 59 && s ≤ 59 then some ((3600 * h + 60 * mi + s : Nat) : Int)
    else none
  else none

/-- Model of `datetime.fromisoformat`, returning epoch seconds, for the
`YYYY-MM-DD` and `YYYY-MM-DD{T, }HH:MM:SS` shapes; all other inputs —
in particular the empty string — are treated as raising (`none`). -/
def fromisoformat (s : String) : Option Int :=
  match s.data with
  | [y1, y2, y3, y4, '-', m1, m2, '-', d1, d2] =>
    (isoDateVal y1 y2 y3 y4 m1 m2 d1 d2).map fun v => 86400 * daysFromCivil v.1 v.2.1 v.2.2
  | [y1, y2, y3, y4, '-', m1, m2, '-', d1, d2, sep, h1, h2, ':', mi1, mi2, ':', s1, s2] =>
    if sep == 'T' || sep == ' ' then
      match isoDateVal y1 y2 y3 y4 m1 m2 d1 d2, isoTimeVal h1 h2 mi1 mi2 s1 s2 with
      | some v, some t => some (86400 * daysFromCivil v.1 v.2.1 v.2.2 + t)
      | _, _ => none
    else none
  | _ => none

/-- Left-pad the decimal form of a nonnegative integer with zeros. -/
def padNum (width : Nat) (n : Int) : String :=
  let s := toString n.toNat
  if s.length < width then String.mk (List.replicate (width - s.length) '0') ++ s.data.asString
  else s

/-- `date.isoformat()` for the civil date of an epoch day count. -/
def isoDateOfDays (z : Int) : String :=
  let c := civilFromDays z
  padNum 4 c.1 ++ "-" ++ padNum 2 c.2.1 ++ "-" ++ padNum 2 c.2.2

/-! ## Item model: a processed historical-data dict
(src/api/services/historical_service.py). Absent dict keys are `none`;
`item.get(k, d)` is `(field).getD d`. -/

/-- A historical content item as a dict of optional fields. Only the fields
read by the ranking / scoring / filtering / aggregation code are modelled. -/
structure Item where
  platform : Option String := none
  author : Option String := none
  likes : Option Int := none
  comments : Option Int := none
  shares : Option Int := none
  collects : Option Int := none
  views : Option Int := none
  total_engagement : Option Int := none
  publish_time : Option String := none
  crawled_at : Option String := none
  title : Option String := none
  content : Option String := none
  tags : List String := []
deriving DecidableEq

/-- `item.get("total_engagement", 0)`. -/
def engOf (item : Item) : Int := item.total_engagement.getD 0

/-- `item.get("platform", "unknown")`. -/
def platformOf (item : Item) : String := item.platform.getD "unknown"

/-- The engagement sum `likes + comments + shares + collects` with absent
counters defaulting to 0 — the spec's derived `total_engagement` and the
value `_process_historical_item` stores when the field is absent. -/
def hotSum (item : Item) : Int :=
  item.likes.getD 0 + item.comments.getD 0 + item.shares.getD 0 + item.collects.getD 0

/-- `item.get("author", "unknown")`. -/
def authorOf (item : Item) : String := item.author.getD "unknown"

/-! ## crawler_config.py: SortBy, TimeRange, TimeRangeConfig -/

/-- `SortBy` enum (src/api/models/crawler_config.py). -/
inductive SortBy
  | hot | recent | trending | popular | relevant | comments | likes | shares
deriving DecidableEq

/-- `TimeRange` enum (src/api/models/crawler_config.py). -/
inductive TimeRange
  | one_day | three_days | seven_days | thirty_days | ninety_days
  | six_months | one_year | all | custom
deriving DecidableEq

/-- The string value of each `TimeRange` member. -/
def TimeRange.value : TimeRange → String
  | .one_day => "1d"
  | .three_days => "3d"
  | .seven_days => "7d"
  | .thirty_days => "30d"
  | .ninety_days => "90d"
  | .six_months => "6m"
  | .one_year => "1y"
  | .all => "all"
  | .custom => "custom"

/-- The members of `TimeRange` in declaration (iteration) order. -/
def timeRangeMembers : List TimeRange :=
  [.one_day, .three_days, .seven_days, .thirty_days, .ninety_days,
   .six_months, .one_year, .all, .custom]

/-- `TimeRangeConfig` (the `timezone` field, a constant `"UTC"` never read
by the logic, is omitted). Dates are epoch seconds. -/
structure TimeRangeConfig where
  range_type : TimeRange
  start_date : Option Int := none
  end_date : Option Int := none
deriving DecidableEq

/-- The `for time_range in TimeRange: if range_string.lower() == time_range.value`
loop of `parse_range_string`. -/
def enumMatch (s : String) : Option TimeRange :=
  timeRangeMembers.find? fun tr => pyLower s == tr.value

/-- The `','` branch of `parse_range_string`: split on commas, require
exactly two parts, parse both with `fromisoformat` after `strip()`;
any failure falls through. -/
def commaMatch (s : String) : Option (Int × Int) :=
  if s.data.contains ',' then
    match pySplitComma s with
    | [p1, p2] =>
      match fromisoformat (pyStrip p1), fromisoformat (pyStrip p2) with
      | some a, some b => some (a, b)
      | _, _ => none
    | _ => none
  else none

/-- The regex `^(\d+)([dwmy])$` applied to the lowercased string:
a nonempty digit run followed by one unit letter. -/
def matchRelative (s : String) : Option (Nat × Char) :=
  match s.data.reverse with
  | [] => none
  | u :: ds =>
    let digits := ds.reverse
    if (u == 'd' || u == 'w' || u == 'm' || u == 'y')
        && !digits.isEmpty && digits.all Char.isDigit then
      some (digits.foldl (fun n c => 10 * n + digitVal c) 0, u)
    else none

/-- The `unit_map` dict of `parse_range_string`: only specific magic
values map to an enumerated range; everything else is `None`. -/
def unitMap (value : Nat) (unit : Char) : Option TimeRange :=
  if unit = 'd' then
    if value = 1 then some .one_day
    else if value = 7 then some .seven_days
    else if value = 30 then some .thirty_days
    else if value = 90 then some .ninety_days
    else none
  else if unit = 'w' then
    if value = 1 then some .seven_days else none
  else if unit = 'm' then
    if value = 1 then some .thirty_days
    else if value = 6 then some .six_months
    else none
  else if unit = 'y' then
    if value = 1 then some .one_year else none
  else none

/-- `TimeRangeConfig.parse_range_string`: enum value, else ISO date pair,
else mapped relative pattern, else the 7-day default. -/
def parse_range_string (range_string : String) : TimeRangeConfig :=
  match enumMatch range_string with
  | some tr => { range_type := tr }
  | none =>
    match commaMatch range_string with
    | some ab => { range_type := .custom, start_date := some ab.1, end_date := some ab.2 }
    | none =>
      match (matchRelative (pyLower range_string)).bind fun p => unitMap p.1 p.2 with
      | some tr => { range_type := tr }
      | none => { range_type := .seven_days }

/-- The `range_map` of `get_date_range` as seconds; `None` for the ranges
absent from the dict. -/
def rangeDelta : TimeRange → Option Int
  | .one_day => some 86400
  | .three_days => some (3 * 86400)
  | .seven_days => some (7 * 86400)
  | .thirty_days => some (30 * 86400)
  | .ninety_days => some (90 * 86400)
  | .six_months => some (180 * 86400)
  | .one_year => some (365 * 86400)
  | _ => none

/-- `TimeRangeConfig.get_date_range`, with `datetime.utcnow()` passed
explicitly as `now`. -/
def TimeRangeConfig.get_date_range (cfg : TimeRangeConfig) (now : Int) :
    Option Int × Option Int :=
  if cfg.range_type = .all then (none, none)
  else if cfg.range_type = .custom then (cfg.start_date, cfg.end_date)
  else
    match rangeDelta cfg.range_type with
    | some delta => (some (now - delta), some now)
    | none => (none, none)

/-- The spec's `TimeWindowResolver.resolve`: parse the specification and
compute the date range at resolution time `now`. -/
def resolve (spec : String) (now : Int) : Option Int × Option Int :=
  (parse_range_string spec).get_date_range now

/-! ## historical_service.py: scoring, filtering, sorting -/

/-- `item.get("publish_time", item.get("crawled_at", ""))`. -/
def trendDateStr (item : Item) : String :=
  item.publish_time.getD (item.crawled_at.getD "")

/-- `HistoricalDataService._calculate_trend_score`: engagement divided by
`max(1, (now - publish_time).days)`; any parse failure yields 0. -/
def calculate_trend_score (item : Item) (now : Int) : ℚ :=
  match fromisoformat (trendDateStr item) with
  | none => 0
  | some publish_time =>
    let days_old : Int := max 1 ((now - publish_time).fdiv 86400)
    let engagement : Int := item.total_engagement.getD 0
    (engagement : ℚ) / (days_old : ℚ)

/-- `HistoricalDataService._calculate_relevance_score`: +10 title hit,
+5 content hit, +3 any-tag hit, plus `min(5, engagement / 1000)`. -/
def calculate_relevance_score (item : Item) (search_text : String) : ℚ :=
  let search_lower := pyLower search_text
  let s1 : ℚ := if strIn search_lower (pyLower (item.title.getD "")) then 10 else 0
  let s2 : ℚ := s1 + (if strIn search_lower (pyLower (item.content.getD "")) then 5 else 0)
  let s3 : ℚ := s2 + (if item.tags.any fun tag => strIn search_lower (pyLower tag) then 3 else 0)
  let engagement : Int := item.total_engagement.getD 0
  s3 + min 5 ((engagement : ℚ) / 1000)

/-- Python int truthiness of an optional bound: `None` and `0` are falsy. -/
def truthyInt : Option Int → Bool
  | none => false
  | some n => !(n == 0)

/-- The per-item keep test of `_filter_by_engagement` (the two
`continue` guards). -/
def keepByEngagement (min_engagement max_engagement : Option Int) (item : Item) : Bool :=
  let engagement := item.total_engagement.getD 0
  if truthyInt min_engagement && decide (engagement < min_engagement.getD 0) then false
  else if truthyInt max_engagement && decide (max_engagement.getD 0 < engagement) then false
  else true

/-- `HistoricalDataService._filter_by_engagement`. -/
def filter_by_engagement (items : List Item) (min_engagement max_engagement : Option Int) :
    List Item :=
  items.filter (keepByEngagement min_engagement max_engagement)

/-- The `if query.min_engagement or query.max_engagement:` guard of
`query_historical_data` (lines 55–60). -/
def applyEngagementFilter (min_engagement max_engagement : Option Int)
    (items : List Item) : List Item :=
  if truthyInt min_engagement || truthyInt max_engagement then
    filter_by_engagement items min_engagement max_engagement
  else items

/-- `HistoricalDataService._sort_results`: key selection per criterion and
a stable `sorted(items, key=key, reverse=desc)`. Criteria without a branch
(POPULAR, RELEVANT, SHARES) fall to the `crawled_at` default. -/
def sort_results (items : List Item) (sort_by : SortBy) (desc : Bool) (now : Int) :
    List Item :=
  match sort_by with
  | .hot => pySorted intLeB (fun x => x.total_engagement.getD 0) desc items
  | .recent => pySorted strLeB (fun x => x.publish_time.getD (x.crawled_at.getD "")) desc items
  | .trending => pySorted ratLeB (fun x => calculate_trend_score x now) desc items
  | .likes => pySorted intLeB (fun x => x.likes.getD 0) desc items
  | .comments => pySorted intLeB (fun x => x.comments.getD 0) desc items
  | _ => pySorted strLeB (fun x => x.crawled_at.getD "") desc items

/-! ## historical_service.py: aggregation -/

/-- Ordered dict update: `if k not in d: d[k] = init` then in-place update;
insertion order is preserved, new keys are appended. -/
def dictUpdate {A : Type} (k : String) (upd : A → A) (init : A) :
    List (String × A) → List (String × A)
  | [] => [(k, upd init)]
  | (k', v) :: rest =>
    if k' = k then (k', upd v) :: rest else (k', v) :: dictUpdate k upd init rest

/-- Lookup in an association-list dict. -/
def lookupA {A : Type} : List (String × A) → String → Option A
  | [], _ => none
  | (k', v) :: rest, k => if k' = k then some v else lookupA rest k

/-- Per-group accumulator shared by the aggregation loops: item count,
summed engagement, and a Python `set` of names (authors or platforms). -/
structure GroupAcc where
  count : Nat
  engagement : Int
  names : Finset String
deriving DecidableEq

/-- Initial accumulator (`{count: 0, engagement: 0, names: set()}`). -/
def emptyAcc : GroupAcc := ⟨0, 0, ∅⟩

/-- One loop iteration: `count += 1`, `engagement += total_engagement`,
`names.add(nameOf item)`. -/
def updAcc (nameOf : Item → String) (item : Item) (a : GroupAcc) : GroupAcc :=
  ⟨a.count + 1, a.engagement + engOf item, insert (nameOf item) a.names⟩

/-- One iteration of the `for item in items` aggregation loop: items whose
key function yields `none` are skipped (`continue`), the rest update the
insertion-ordered dict in place. -/
def aggStep (K : Item → Option String) (nameOf : Item → String)
    (aggregated : List (String × GroupAcc)) (item : Item) : List (String × GroupAcc) :=
  match K item with
  | none => aggregated
  | some k => dictUpdate k (updAcc nameOf item) emptyAcc aggregated

/-- The common `for item in items: if key not in aggregated ... +=` loop of
the `_aggregate_by_*` helpers, over an insertion-ordered dict. -/
def pyDictFold (K : Item → Option String) (nameOf : Item → String)
    (items : List Item) : List (String × GroupAcc) :=
  items.foldl (aggStep K nameOf) []

/-- A `_aggregate_by_day` bucket: `{date, count, engagement, unique_authors}`. -/
structure DayBucket where
  date : String
  count : Nat
  engagement : Int
  unique_authors : Nat
deriving DecidableEq

/-- A `_aggregate_by_platform` bucket:
`{platform, count, engagement, unique_authors}`. -/
structure PlatformBucket where
  platform : String
  count : Nat
  engagement : Int
  unique_authors : Nat
deriving DecidableEq

/-- A `_aggregate_by_author` bucket:
`{author, count, engagement, platform_count}` — no `unique_authors` field. -/
structure AuthorBucket where
  author : String
  count : Nat
  engagement : Int
  platform_count : Nat
deriving DecidableEq

/-- The day key of an item: skip when the date string is empty (falsy) or
unparseable, else `fromisoformat(date_str).date().isoformat()`. -/
def dayKeyOf (item : Item) : Option String :=
  let date_str := trendDateStr item
  if date_str = "" then none
  else (fromisoformat date_str).map fun t => isoDateOfDays (t.fdiv 86400)

/-- `HistoricalDataService._aggregate_by_day`: group by calendar date,
convert author sets to counts, sort ascending by date. -/
def aggregate_by_day (items : List Item) (metrics : String) : List DayBucket :=
  let aggregated := pyDictFold dayKeyOf authorOf items
  pySorted strLeB (fun b => b.date) false
    (aggregated.map fun p => ⟨p.1, p.2.count, p.2.engagement, p.2.names.card⟩)

/-- `HistoricalDataService._aggregate_by_week` — reduces to day bucketing. -/
def aggregate_by_week (items : List Item) (metrics : String) : List DayBucket :=
  aggregate_by_day items metrics

/-- `HistoricalDataService._aggregate_by_month` — reduces to day bucketing. -/
def aggregate_by_month (items : List Item) (metrics : String) : List DayBucket :=
  aggregate_by_day items metrics

/-- `HistoricalDataService._aggregate_by_platform`: group by platform
(default `"unknown"`), author sets to counts, sort by engagement descending. -/
def aggregate_by_platform (items : List Item) (metrics : String) : List PlatformBucket :=
  let aggregated := pyDictFold (fun i => some (platformOf i)) authorOf items
  pySorted intLeB (fun b => b.engagement) true
    (aggregated.map fun p => ⟨p.1, p.2.count, p.2.engagement, p.2.names.card⟩)

/-- `HistoricalDataService._aggregate_by_author`: group by author
(default `"unknown"`), platform sets to counts, sort by engagement
descending, truncate to the top 100. -/
def aggregate_by_author (items : List Item) (metrics : String) : List AuthorBucket :=
  let aggregated := pyDictFold (fun i => some (authorOf i)) platformOf items
  (pySorted intLeB (fun b => b.engagement) true
    (aggregated.map fun p => ⟨p.1, p.2.count, p.2.engagement, p.2.names.card⟩)).take 100

/-! ## redis_service.py and the cache-degradation path of
`query_historical_data`. The backing Redis client is modelled as a pair of
operations that either return (`Except.ok`) or raise (`Except.error`);
connection failure in `_get_client` is subsumed by `enabled = false` /
a raising operation. -/

/-- Observable behavior of the backing Redis client. -/
structure CacheOps where
  getR : String → Except Unit (Option String)
  setR : String → String → Except Unit Bool

/-- `RedisService.get`: disabled → `None`; a raising client op is caught
and logged, returning `None`. Never raises. -/
def redis_get (enabled : Bool) (ops : CacheOps) (key : String) : Option String :=
  if enabled then
    match ops.getR key with
    | .error _ => none
    | .ok v => v
  else none

/-- `RedisService.set`: disabled → `False`; a raising client op is caught
and logged, returning `False`. Never raises. -/
def redis_set (enabled : Bool) (ops : CacheOps) (key value : String) : Bool :=
  if enabled then
    match ops.setR key value with
    | .error _ => false
    | .ok b => b
  else false

/-- The cache-aside skeleton of `HistoricalDataService.query_historical_data`:
check the cache, on a hit return the cached payload, on a miss run the
query/enrich/filter/sort/paginate pipeline (abstracted here as `compute`,
whose own store failures re-raise via the outer `except`), store the result
(ignoring the success flag) and return it. -/
def query_historical_data (enabled : Bool) (ops : CacheOps) (cache_key : String)
    (compute : Except Unit String) : Except Unit String :=
  match redis_get enabled ops cache_key with
  | some cached => .ok cached
  | none =>
    match compute with
    | .error e => .error e
    | .ok result =>
      let _ := redis_set enabled ops cache_key result
      .ok result

/-! ## supabase_service.py retention operations and
`HistoricalDataService.cleanup_old_data`. The Supabase `results` table is
modelled as an in-memory list of records; `created_at` ISO-string
comparisons against `cutoff_date.isoformat()` become timestamp
comparisons. -/

/-- A stored record as seen by the retention path. -/
structure StoreRecord where
  created_at : Int
  platform : String
deriving DecidableEq

/-- Python truthiness of the optional platform list (`if platforms:`):
`None` and `[]` are falsy. -/
def truthyList : Option (List String) → Bool
  | none => false
  | some l => !l.isEmpty

/-- The predicate built by `count_old_records` / `delete_old_records`:
`created_at < cutoff`, plus `platform in platforms` when that filter is
truthy. -/
def matchesCleanup (cutoff_date : Int) (platforms : Option (List String))
    (r : StoreRecord) : Bool :=
  decide (r.created_at < cutoff_date) &&
    (if truthyList platforms then (platforms.getD []).contains r.platform else true)

/-- `SupabaseService.count_old_records`: a read-only count. -/
def count_old_records (records : List StoreRecord) (cutoff_date : Int)
    (platforms : Option (List String)) : Nat :=
  (records.filter (matchesCleanup cutoff_date platforms)).length

/-- `SupabaseService.delete_old_records`: count first, then delete the
matching records; returns the count and the new table contents. -/
def delete_old_records (records : List StoreRecord) (cutoff_date : Int)
    (platforms : Option (List String)) : Nat × List StoreRecord :=
  (count_old_records records cutoff_date platforms,
   records.filter fun r => !matchesCleanup cutoff_date platforms r)

/-- `RedisService.clear_pattern "historical:*"`: drop every cache entry
whose key matches the prefix pattern. -/
def clear_pattern (cache : List (String × String)) (pre : String) :
    List (String × String) :=
  cache.filter fun e => !isPrefixB pre.data e.1.data

/-- Result shape of `cleanup_old_data`; `freed_space_mb` is
`0.1 * deleted_count`, kept exact as a rational. -/
structure CleanupResult where
  deleted_count : Nat
  freed_space_mb : ℚ
deriving DecidableEq

/-- `HistoricalDataService.cleanup_old_data` over the modelled store and
cache: a dry run only counts; a real run deletes and clears the
`historical:*` cache pattern. Returns (result, store, cache). -/
def cleanup_old_data (records : List StoreRecord) (cache : List (String × String))
    (cutoff_date : Int) (platforms : Option (List String)) (dry_run : Bool) :
    CleanupResult × List StoreRecord × List (String × String) :=
  if dry_run then
    let count := count_old_records records cutoff_date platforms
    (⟨count, (count : ℚ) * (1 / 10)⟩, records, cache)
  else
    let deleted := delete_old_records records cutoff_date platforms
    (⟨deleted.1, (deleted.1 : ℚ) * (1 / 10)⟩, deleted.2, clear_pattern cache "historical:")

/-! ## Definitions transcribed from the specification's words, for the
refinement claims that compare spec formulas with the code. -/

/-- The TRENDING key exactly as the spec words it:
`(likes+comments) / max(1, days_since_publish+1)`, over the same parsed
publish time as the code (unparseable publish time scoring 0). -/
def trend_key_spec (item : Item) (now : Int) : ℚ :=
  match fromisoformat (trendDateStr item) with
  | none => 0
  | some publish_time =>
    let days_since_publish : Int := (now - publish_time).fdiv 86400
    ((item.likes.getD 0 + item.comments.getD 0 : Int) : ℚ) /
      ((max 1 (days_since_publish + 1) : Int) : ℚ)

/-- The relevance score exactly as the spec words it: 10 for a
case-insensitive substring hit in the title, 5 in the body (the code's
`content` field), 3 in any tag, plus `min(5, total_engagement / 1000)`. -/
def relevance_score_spec (item : Item) (query_text : String) : ℚ :=
  (if strIn (pyLower query_text) (pyLower (item.title.getD "")) then 10 else 0)
  + (if strIn (pyLower query_text) (pyLower (item.content.getD "")) then 5 else 0)
  + (if item.tags.any fun tag => strIn (pyLower query_text) (pyLower tag) then 3 else 0)
  + min 5 ((item.total_engagement.getD 0 : ℚ) / 1000)

/-! ## Concrete items used by witnesses and counterexamples.
Epoch values: 2024-01-01T00:00:00 = 1704067200, 2024-01-02T00:00:00 =
1704153600. -/

/-- An item with `likes = 2` (engagement 2) published 2024-01-01. -/
def cItemTrendA : Item :=
  { likes := some 2, total_engagement := some 2,
    publish_time := some "2024-01-01T00:00:00" }

/-- An item whose engagement is all shares, published 2024-01-01. -/
def cItemTrendB : Item :=
  { shares := some 4, total_engagement := some 4,
    publish_time := some "2024-01-01T00:00:00" }

/-- An item with 100 views, crawled 2024-01-01. -/
def cItemViews : Item :=
  { views := some 100, crawled_at := some "2024-01-01T00:00:00" }

/-- An item with no views field, crawled 2024-01-02. -/
def cItemNoViews : Item :=
  { crawled_at := some "2024-01-02T00:00:00" }

/-- Author "a" posting on platform "x" with engagement 1. -/
def cAuthItem1 : Item :=
  { author := some "a", platform := some "x", total_engagement := some 1 }

/-- Author "a" posting on platform "y" with engagement 2. -/
def cAuthItem2 : Item :=
  { author := some "a", platform := some "y", total_engagement := some 2 }

/-- An item whose title contains "AI", with zero engagement and no other
match for the query "ai". -/
def cRelItem : Item :=
  { title := some "Hello AI world", content := some "nothing here",
    tags := ["other"], total_engagement := some 0 }

/-- Engagement-7 item (all from likes), author "a". -/
def cHotA : Item :=
  { author := some "a", likes := some 7, total_engagement := some 7 }

/-- Engagement-7 item (likes 3, comments 4), author "b". -/
def cHotB : Item :=
  { author := some "b", likes := some 3, comments := some 4,
    total_engagement := some 7 }

/-- A Redis client on which every operation raises. -/
def cFailOps : CacheOps :=
  ⟨fun _ => .error (), fun _ _ => .error ()⟩

/-- An item with total engagement 5. -/
def cEngItem5 : Item := { total_engagement := some 5 }

/-- The group statistics of the items with key `k` under key function `K`:
how many there are, their summed engagement, and their name image as a
set — the reference value the aggregation buckets are compared against. -/
def accExtend (nameOf : Item → String) (a : GroupAcc) (l : List Item) : GroupAcc :=
  ⟨a.count + l.length, a.engagement + (l.map engOf).sum,
   a.names ∪ (l.map nameOf).toFinset⟩

/-- The keys of an association-list dict. -/
def keysOf {A : Type} (l : List (String × A)) : List String := l.map Prod.fst

/-! ## Lemmas: the stable sort -/

theorem insertBy_perm {α : Type} (r : α → α → Bool) (x : α) (l : List α) :
    (insertBy r x l).Perm (x :: l) := by
  induction l with
  | nil => simp [insertBy]
  | cons y ys ih =>
    by_cases h : r x y = true
    · simp [insertBy, h]
    · simp only [insertBy, h, if_false, Bool.false_eq_true]
      exact (List.Perm.cons y ih).trans (List.Perm.swap x y ys)

theorem sortBy_perm {α : Type} (r : α → α → Bool) (l : List α) :
    (sortBy r l).Perm l := by
  induction l with
  | nil => simp [sortBy]
  | cons x xs ih =>
    exact (insertBy_perm r x (sortBy r xs)).trans (List.Perm.cons x ih)

theorem pySorted_perm {α β : Type} (le : β → β → Bool) (key : α → β) (rev : Bool)
    (l : List α) : (pySorted le key rev l).Perm l := by
  unfold pySorted
  split <;> exact sortBy_perm _ l

theorem mem_pySorted {α β : Type} (le : β → β → Bool) (key : α → β) (rev : Bool)
    (l : List α) (a : α) : a ∈ pySorted le key rev l ↔ a ∈ l :=
  (pySorted_perm le key rev l).mem_iff

theorem filter_insertBy {α β : Type} [DecidableEq β] (key : α → β) (r : α → α → Bool)
    (href : ∀ a b, key a = key b → r a b = true) (k : β) (x : α) (l : List α) :
    (insertBy r x l).filter (fun a => decide (key a = k)) =
      if key x = k then x :: l.filter (fun a => decide (key a = k))
      else l.filter (fun a => decide (key a = k)) := by
  induction l with
  | nil => by_cases hx : key x = k <;> simp [insertBy, hx]
  | cons y ys ih =>
    by_cases hr : r x y = true
    · by_cases hx : key x = k <;> simp [insertBy, hr, List.filter_cons, hx]
    · have hkey : key x ≠ key y := fun h => hr (href x y h)
      by_cases hx : key x = k
      · have hy : key y ≠ k := fun h => hkey (by rw [hx, h])
        simp [insertBy, hr, List.filter_cons, hx, hy, ih]
      · by_cases hy : key y = k <;>
          simp [insertBy, hr, List.filter_cons, hx, hy, ih]

theorem filter_sortBy {α β : Type} [DecidableEq β] (key : α → β) (r : α → α → Bool)
    (href : ∀ a b, key a = key b → r a b = true) (k : β) (l : List α) :
    (sortBy r l).filter (fun a => decide (key a = k)) =
      l.filter (fun a => decide (key a = k)) := by
  induction l with
  | nil => rfl
  | cons x xs ih =>
    simp only [sortBy]
    rw [filter_insertBy key r href k x (sortBy r xs)]
    by_cases hx : key x = k <;> simp [List.filter_cons, hx, ih]

/-- Stability of the model of Python `sorted`: for any key value `k`, the
elements with that key appear in the output in exactly their input order,
in both sort directions. -/
theorem filter_pySorted {α β : Type} [DecidableEq β] (le : β → β → Bool) (key : α → β)
    (hrefl : ∀ b, le b b = true) (rev : Bool) (k : β) (l : List α) :
    (pySorted le key rev l).filter (fun a => decide (key a = k)) =
      l.filter (fun a => decide (key a = k)) := by
  unfold pySorted
  by_cases hrev : rev
  · simp only [hrev, if_true]
    exact filter_sortBy key _ (fun a b h => by rw [h]; exact hrefl _) k l
  · simp only [hrev, if_false, Bool.false_eq_true]
    exact filter_sortBy key _ (fun a b h => by rw [h]; exact hrefl _) k l

theorem intLeB_refl (a : Int) : intLeB a a = true := by simp [intLeB]

theorem charListLeB_refl (l : List Char) : charListLeB l l = true := by
  induction l with
  | nil => rfl
  | cons c cs ih => simp [charListLeB, ih]

theorem strLeB_refl (s : String) : strLeB s s = true := charListLeB_refl s.data

/-! ## Lemmas: the insertion-ordered dict and the aggregation loop -/

theorem lookupA_dictUpdate {A : Type} (k q : String) (u : A → A) (init : A)
    (l : List (String × A)) :
    lookupA (dictUpdate k u init l) q =
      if q = k then some (u ((lookupA l k).getD init)) else lookupA l q := by
  induction l with
  | nil =>
    by_cases hq : q = k
    · subst hq
      simp [dictUpdate, lookupA]
    · have hq' : ¬ k = q := fun h => hq h.symm
      simp [dictUpdate, lookupA, hq, hq']
  | cons p rest ih =>
    obtain ⟨k', v⟩ := p
    by_cases hk : k' = k
    · subst hk
      by_cases hq : q = k' <;> simp [dictUpdate, lookupA, hq, eq_comm]
    · by_cases hq : q = k
      · subst hq
        have : ¬ k' = q := hk
        simp [dictUpdate, lookupA, hk, this, ih]
      · by_cases hkq : k' = q <;> simp [dictUpdate, lookupA, hk, hkq, hq, ih]

theorem keysOf_dictUpdate {A : Type} (k : String) (u : A → A) (init : A)
    (l : List (String × A)) :
    keysOf (dictUpdate k u init l) =
      if k ∈ keysOf l then keysOf l else keysOf l ++ [k] := by
  induction l with
  | nil => simp [dictUpdate, keysOf]
  | cons p rest ih =>
    obtain ⟨k', v⟩ := p
    by_cases hk : k' = k
    · subst hk
      simp [dictUpdate, keysOf]
    · have hne : ¬ k = k' := fun h => hk h.symm
      simp only [dictUpdate, hk, if_false, keysOf, List.map_cons] at ih ⊢
      rw [ih]
      by_cases hmem : k ∈ List.map Prod.fst rest
      · simp [hmem, hne]
      · simp [hmem, hne]

theorem nodup_keys_dictUpdate {A : Type} (k : String) (u : A → A) (init : A)
    (l : List (String × A)) (h : (keysOf l).Nodup) :
    (keysOf (dictUpdate k u init l)).Nodup := by
  rw [keysOf_dictUpdate]
  by_cases hmem : k ∈ keysOf l
  · simpa [hmem] using h
  · simp [hmem, List.nodup_append, h]

theorem lookupA_of_mem {A : Type} (l : List (String × A)) (k : String) (a : A)
    (hnd : (keysOf l).Nodup) (h : (k, a) ∈ l) : lookupA l k = some a := by
  induction l with
  | nil => simp at h
  | cons p rest ih =>
    obtain ⟨k', v⟩ := p
    simp only [keysOf, List.map_cons, List.nodup_cons] at hnd
    rcases List.mem_cons.mp h with h1 | h1
    · have hk : k' = k := (Prod.mk.injEq .. ▸ h1.symm).1
      have hv : v = a := (Prod.mk.injEq .. ▸ h1.symm).2
      simp [lookupA, hk, hv]
    · have hk : ¬ k' = k := by
        intro he
        exact hnd.1 (he ▸ (List.mem_map.mpr ⟨(k, a), h1, rfl⟩))
      simp [lookupA, hk]
      exact ih hnd.2 h1

theorem accExtend_nil (nameOf : Item → String) (a : GroupAcc) :
    accExtend nameOf a [] = a := by
  cases a
  simp [accExtend]

theorem accExtend_cons (nameOf : Item → String) (a : GroupAcc) (i : Item)
    (l : List Item) :
    accExtend nameOf a (i :: l) = accExtend nameOf (updAcc nameOf i a) l := by
  simp only [accExtend, updAcc, List.map_cons, List.sum_cons, List.toFinset_cons,
    List.length_cons, GroupAcc.mk.injEq]
  refine ⟨by omega, by ring, ?_⟩
  rw [Finset.union_insert, Finset.insert_union]

theorem nodup_keys_aggStep (K : Item → Option String) (nameOf : Item → String)
    (acc : List (String × GroupAcc)) (item : Item) (h : (keysOf acc).Nodup) :
    (keysOf (aggStep K nameOf acc item)).Nodup := by
  unfold aggStep
  cases K item with
  | none => exact h
  | some k => exact nodup_keys_dictUpdate k _ _ acc h

theorem nodup_keys_foldAgg (K : Item → Option String) (nameOf : Item → String) :
    ∀ (items : List Item) (acc : List (String × GroupAcc)),
      (keysOf acc).Nodup → (keysOf (items.foldl (aggStep K nameOf) acc)).Nodup := by
  intro items
  induction items with
  | nil => intro acc h; exact h
  | cons i rest ih =>
    intro acc h
    exact ih _ (nodup_keys_aggStep K nameOf acc i h)

/-- The central invariant of the aggregation loop: after folding `items`
into a dict, the value at key `k` is the starting value (or the empty
accumulator) extended by exactly the items whose key is `k`, in order. -/
theorem foldAgg_lookup (K : Item → Option String) (nameOf : Item → String) :
    ∀ (items : List Item) (acc : List (String × GroupAcc)) (k : String),
    lookupA (items.foldl (aggStep K nameOf) acc) k =
      match lookupA acc k with
      | some a => some (accExtend nameOf a (items.filter fun i => decide (K i = some k)))
      | none =>
        if (items.filter fun i => decide (K i = some k)).isEmpty then none
        else some (accExtend nameOf emptyAcc
          (items.filter fun i => decide (K i = some k))) := by
  intro items
  induction items with
  | nil =>
    intro acc k
    cases hl : lookupA acc k <;> simp [hl, accExtend_nil]
  | cons i rest ih =>
    intro acc k
    simp only [List.foldl_cons]
    cases hK : K i with
    | none =>
      have hstep : aggStep K nameOf acc i = acc := by simp [aggStep, hK]
      have hfilter : ¬ (K i = some k) := by simp [hK]
      rw [hstep, ih acc k]
      simp [List.filter_cons, hfilter]
    | some k' =>
      have hstep : aggStep K nameOf acc i = dictUpdate k' (updAcc nameOf i) emptyAcc acc := by
        simp [aggStep, hK]
      rw [hstep, ih _ k, lookupA_dictUpdate]
      by_cases hkk : k = k'
      · subst hkk
        have hfilter : K i = some k := hK
        simp only [if_pos rfl, List.filter_cons, hfilter, decide_True]
        cases hl : lookupA acc k <;>
          simp [hl, accExtend_cons, List.isEmpty_cons]
      · have hfilter : ¬ (K i = some k) := by simp [hK, Ne.symm hkk]
        simp only [if_neg hkk, List.filter_cons, hfilter]
        simp

/-- A dict entry produced by the aggregation loop carries exactly the
count, engagement sum, and name set of the items grouped under its key. -/
theorem mem_pyDictFold (K : Item → Option String) (nameOf : Item → String)
    (items : List Item) (k : String) (a : GroupAcc)
    (h : (k, a) ∈ pyDictFold K nameOf items) :
    a.count = (items.filter fun i => decide (K i = some k)).length ∧
    a.engagement = ((items.filter fun i => decide (K i = some k)).map engOf).sum ∧
    a.names = ((items.filter fun i => decide (K i = some k)).map nameOf).toFinset := by
  have hnd : (keysOf (pyDictFold K nameOf items)).Nodup :=
    nodup_keys_foldAgg K nameOf items [] (by simp [keysOf])
  have hl : lookupA (pyDictFold K nameOf items) k = some a :=
    lookupA_of_mem _ k a hnd h
  rw [pyDictFold, foldAgg_lookup K nameOf items [] k] at hl
  simp only [lookupA] at hl
  by_cases he : (items.filter fun i => decide (K i = some k)).isEmpty
  · simp [he] at hl
  · simp only [he, if_neg, Bool.false_eq_true, ite_false] at hl
    have ha : a = accExtend nameOf emptyAcc
        (items.filter fun i => decide (K i = some k)) := by
      injection hl.symm
    rw [ha]
    simp [accExtend, emptyAcc]

/-! ## Claim theorems -/

/-- C7: for any resolution time, resolving the specification "7d" yields a
window whose end equals the resolution time and whose end minus start
equals exactly 7 days. -/
theorem resolve_7d_window (now : Int) :
    resolve "7d" now = (some (now - 7 * 86400), some now) ∧
    now - (now - 7 * 86400) = 7 * 86400 := by
  constructor
  · have h : parse_range_string "7d" = { range_type := .seven_days } := by decide
    rw [resolve, h]
    rfl
  · ring

/-- C6: every time specification that matches no enumerated value, parses
as no date pair, and has no exactly-mapped relative pattern (both the
unparseable case and the unmapped-relative case, e.g. "bogus!!", "45d",
"14d") resolves to the same window as "7d" at the same resolution time. -/
theorem resolve_fallback_default (s : String) (now : Int)
    (h1 : enumMatch s = none) (h2 : commaMatch s = none)
    (h3 : (matchRelative (pyLower s)).bind (fun p => unitMap p.1 p.2) = none) :
    parse_range_string s = parse_range_string "7d" ∧
    resolve s now = resolve "7d" now := by
  have hp : parse_range_string s = { range_type := .seven_days } := by
    simp [parse_range_string, h1, h2, h3]
  have h7 : parse_range_string "7d" = { range_type := .seven_days } := by decide
  refine ⟨hp.trans h7.symm, ?_⟩
  rw [resolve, resolve, hp, h7]

/-- C6 witness: the fallback theorem applied at "bogus!!", "45d" and "14d". -/
theorem resolve_fallback_default_witness :
    (parse_range_string "bogus!!" = parse_range_string "7d" ∧
      resolve "bogus!!" 0 = resolve "7d" 0) ∧
    (parse_range_string "45d" = parse_range_string "7d" ∧
      resolve "45d" 0 = resolve "7d" 0) ∧
    (parse_range_string "14d" = parse_range_string "7d" ∧
      resolve "14d" 0 = resolve "7d" 0) :=
  ⟨resolve_fallback_default "bogus!!" 0 (by decide) (by decide) (by decide),
   resolve_fallback_default "45d" 0 (by decide) (by decide) (by decide),
   resolve_fallback_default "14d" 0 (by decide) (by decide) (by decide)⟩

/-- C8: when the cache is disabled or the backing client raises on `get`,
`RedisService.get` returns `None` (no cache error escapes) and
`query_historical_data` degrades to exactly the direct computation,
whatever the `set` operation does. -/
theorem cache_degrades_to_compute (enabled : Bool) (ops : CacheOps) (key : String)
    (compute : Except Unit String)
    (h : enabled = false ∨ ops.getR key = .error ()) :
    redis_get enabled ops key = none ∧
    query_historical_data enabled ops key compute = compute := by
  have hg : redis_get enabled ops key = none := by
    rcases h with h | h
    · simp [redis_get, h]
    · cases enabled <;> simp [redis_get, h]
  refine ⟨hg, ?_⟩
  unfold query_historical_data
  rw [hg]
  cases compute <;> rfl

/-- C8 witness: a client raising on every operation degrades to the
direct computation. -/
theorem cache_degrades_to_compute_witness :
    redis_get true cFailOps "historical:q" = none ∧
    query_historical_data true cFailOps "historical:q" (.ok "r") = .ok "r" :=
  cache_degrades_to_compute true cFailOps "historical:q" (.ok "r") (Or.inr rfl)

/-- C9: a retention dry run mutates neither the store nor the cache, its
count is exactly the number of records older than the cutoff (optionally
platform-filtered), the freed-space estimate is 0.1 MB per record, and a
subsequent real run over the post-dry-run state returns the same count. -/
theorem cleanup_dry_run_frame (records : List StoreRecord)
    (cache : List (String × String)) (cutoff_date : Int)
    (platforms : Option (List String)) :
    (cleanup_old_data records cache cutoff_date platforms true).2.1 = records ∧
    (cleanup_old_data records cache cutoff_date platforms true).2.2 = cache ∧
    (cleanup_old_data records cache cutoff_date platforms true).1.deleted_count =
      (records.filter (matchesCleanup cutoff_date platforms)).length ∧
    (cleanup_old_data records cache cutoff_date platforms true).1.freed_space_mb =
      ((cleanup_old_data records cache cutoff_date platforms true).1.deleted_count : ℚ)
        * (1 / 10) ∧
    (cleanup_old_data
        (cleanup_old_data records cache cutoff_date platforms true).2.1
        (cleanup_old_data records cache cutoff_date platforms true).2.2
        cutoff_date platforms false).1.deleted_count =
      (cleanup_old_data records cache cutoff_date platforms true).1.deleted_count :=
  ⟨rfl, rfl, rfl, rfl, rfl⟩

/-- C2: `_sort_results` has no POPULAR branch, so POPULAR falls to the
default `crawled_at` key: sorting descending places the views-less item
crawled later *before* the item with 100 views, contradicting views-based
ordering. -/
theorem popular_sort_ignores_views :
    cItemViews.views = some 100 ∧ cItemNoViews.views = none ∧
    sort_results [cItemViews, cItemNoViews] SortBy.popular true 0 =
      [cItemNoViews, cItemViews] := by
  refine ⟨rfl, rfl, ?_⟩
  decide

/-- C4: the relevance score is exactly the spec's additive formula
(+10 title, +5 body/content, +3 any tag, plus `min(5, engagement/1000)`),
and an item matching only in the title with zero engagement scores
exactly 10. -/
theorem relevance_score_formula (item : Item) (query_text : String) :
    calculate_relevance_score item query_text = relevance_score_spec item query_text ∧
    (strIn (pyLower query_text) (pyLower (item.title.getD "")) = true →
     strIn (pyLower query_text) (pyLower (item.content.getD "")) = false →
     (item.tags.any fun tag => strIn (pyLower query_text) (pyLower tag)) = false →
     item.total_engagement.getD 0 = 0 →
     calculate_relevance_score item query_text = 10) := by
  constructor
  · rfl
  · intro h1 h2 h3 h4
    simp [calculate_relevance_score, h1, h2, h3, h4]

/-- C4 witness: a title-only match with zero engagement scores 10. -/
theorem relevance_score_formula_witness :
    calculate_relevance_score cRelItem "ai" = 10 :=
  (relevance_score_formula cRelItem "ai").2 (by decide) (by decide) (by decide) (by decide)

/-- C10 counterexample: the item's engagement equals the positive
`min_engagement` bound 5, yet with `max_engagement = 3` it is not
retained, refuting unconditional retention at the boundary. -/
theorem engagement_bounds_counterexample :
    cEngItem5.total_engagement.getD 0 = (5 : Int) ∧
    filter_by_engagement [cEngItem5] (some 5) (some 3) = [] :=
  ⟨rfl, by decide⟩

/-- C10 amended: a zero engagement bound is treated as absent (and with
both bounds absent/zero the query path skips filtering entirely), and the
active bounds are inclusive — an item is retained exactly when its
engagement is ≥ an active minimum and ≤ an active maximum, so a boundary
item is never excluded by the bound it equals. -/
theorem engagement_filter_amended (items : List Item) (mn mx : Option Int) (x : Item) :
    filter_by_engagement items (some 0) mx = filter_by_engagement items none mx ∧
    filter_by_engagement items mn (some 0) = filter_by_engagement items mn none ∧
    applyEngagementFilter none none items = items ∧
    applyEngagementFilter (some 0) (some 0) items = items ∧
    (x ∈ filter_by_engagement items mn mx ↔
      x ∈ items ∧
      (truthyInt mn = true → mn.getD 0 ≤ x.total_engagement.getD 0) ∧
      (truthyInt mx = true → x.total_engagement.getD 0 ≤ mx.getD 0)) := by
  refine ⟨?_, ?_, ?_, ?_, ?_⟩
  · exact List.filter_congr fun y _ => by simp [keepByEngagement, truthyInt]
  · exact List.filter_congr fun y _ => by simp [keepByEngagement, truthyInt]
  · simp [applyEngagementFilter, truthyInt]
  · simp [applyEngagementFilter, truthyInt]
  · have hp : ∀ y : Item, keepByEngagement mn mx y = true ↔
        ((truthyInt mn = true → mn.getD 0 ≤ y.total_engagement.getD 0) ∧
         (truthyInt mx = true → y.total_engagement.getD 0 ≤ mx.getD 0)) := by
      intro y
      by_cases h1 : truthyInt mn = true <;> by_cases h2 : truthyInt mx = true <;>
        simp [keepByEngagement, h1, h2]
    rw [filter_by_engagement, List.mem_filter, hp x]

/-- C10 witness: with consistent inclusive bounds 5 ≤ e ≤ 7 the
boundary item of engagement 5 is retained. -/
theorem engagement_filter_amended_witness :
    cEngItem5 ∈ filter_by_engagement [cEngItem5] (some 5) (some 7) :=
  ((engagement_filter_amended [cEngItem5] (some 5) (some 7) cEngItem5).2.2.2.2).mpr
    ⟨by decide, by decide, by decide⟩

/-- C1 counterexample: the code's TRENDING key differs from the spec
formula `(likes+comments)/max(1, days_since_publish+1)` both in the
denominator (an item exactly one day old scores engagement/1, not
engagement/2) and in the numerator (share-only engagement counts for the
code but not for the spec formula). -/
theorem trend_key_counterexample :
    calculate_trend_score cItemTrendA 1704153600 = 2 ∧
    trend_key_spec cItemTrendA 1704153600 = 1 ∧
    calculate_trend_score cItemTrendB 1704067200 = 4 ∧
    trend_key_spec cItemTrendB 1704067200 = 0 := by
  have hA : fromisoformat (trendDateStr cItemTrendA) = some 1704067200 := by decide
  have hB : fromisoformat (trendDateStr cItemTrendB) = some 1704067200 := by decide
  have hd1 : ((1704153600 : Int) - 1704067200).fdiv 86400 = 1 := by decide
  have hd0 : ((1704067200 : Int) - 1704067200).fdiv 86400 = 0 := by decide
  refine ⟨?_, ?_, ?_, ?_⟩
  · simp only [calculate_trend_score, hA, hd1]
    norm_num [cItemTrendA]
  · simp only [trend_key_spec, hA, hd1]
    norm_num [cItemTrendA]
  · simp only [calculate_trend_score, hB, hd0]
    norm_num [cItemTrendB]
  · simp only [trend_key_spec, hB, hd0]
    norm_num [cItemTrendB]

/-- C1 amended: for every item whose publish time parses, the TRENDING
sort key equals `total_engagement / max(1, days_since_publish)`; the
denominator is always at least 1 (never a division by zero), and an item
published on the day of ranking gets denominator 1, scoring exactly its
engagement. -/
theorem trend_score_amended (item : Item) (now pub : Int)
    (h : fromisoformat (trendDateStr item) = some pub) :
    calculate_trend_score item now =
      (item.total_engagement.getD 0 : ℚ) / ((max 1 ((now - pub).fdiv 86400) : Int) : ℚ) ∧
    (1 : Int) ≤ max 1 ((now - pub).fdiv 86400) ∧
    (0 ≤ now - pub → now - pub < 86400 →
      calculate_trend_score item now = (item.total_engagement.getD 0 : ℚ)) := by
  have heq : calculate_trend_score item now =
      (item.total_engagement.getD 0 : ℚ) / ((max 1 ((now - pub).fdiv 86400) : Int) : ℚ) := by
    simp [calculate_trend_score, h]
  refine ⟨heq, le_max_left 1 _, ?_⟩
  intro h0 h86
  have hd : (now - pub).fdiv 86400 = 0 := by
    rw [Int.fdiv_eq_ediv _ (by norm_num)]
    omega
  rw [heq, hd]
  norm_num

/-- C1 amended witness: a same-day item scores exactly its engagement. -/
theorem trend_score_amended_witness :
    calculate_trend_score cItemTrendA 1704100000 =
      ((cItemTrendA.total_engagement.getD 0 : Int) : ℚ) :=
  (trend_score_amended cItemTrendA 1704100000 1704067200 (by decide)).2.2
    (by decide) (by decide)

/-- C5: HOT ranking is stable in both directions: for items whose
`total_engagement` field carries the engagement sum
`likes+comments+shares+collects` (as the processing step guarantees when
the field is not independently stored), the items tying on that sum appear
in the output in exactly their input order. -/
theorem hot_sort_stable (items : List Item) (desc : Bool) (now : Int) (k : Int)
    (h : ∀ x ∈ items, x.total_engagement.getD 0 = hotSum x) :
    (sort_results items SortBy.hot desc now).filter (fun x => decide (hotSum x = k)) =
      items.filter (fun x => decide (hotSum x = k)) := by
  simp only [sort_results]
  have h1 : (pySorted intLeB (fun x : Item => x.total_engagement.getD 0) desc items).filter
        (fun x => decide (hotSum x = k)) =
      (pySorted intLeB (fun x : Item => x.total_engagement.getD 0) desc items).filter
        (fun x => decide (x.total_engagement.getD 0 = k)) := by
    apply List.filter_congr
    intro x hx
    rw [h x ((mem_pySorted _ _ _ _ x).mp hx)]
  have h2 : items.filter (fun x => decide (hotSum x = k)) =
      items.filter (fun x => decide (x.total_engagement.getD 0 = k)) := by
    apply List.filter_congr
    intro x hx
    rw [h x hx]
  rw [h1, h2]
  exact filter_pySorted intLeB _ intLeB_refl desc k items

/-- C5 witness: two items tying at engagement 7 keep their input order
under a descending HOT sort. -/
theorem hot_sort_stable_witness :
    (sort_results [cHotA, cHotB] SortBy.hot true 0).filter
        (fun x => decide (hotSum x = 7)) =
      [cHotA, cHotB].filter (fun x => decide (hotSum x = 7)) :=
  hot_sort_stable [cHotA, cHotB] true 0 7 (by decide)

/-- C3 counterexample: author-dimension buckets carry no `unique_authors`
field; their third statistic is `platform_count`, which for an author
active on two platforms is 2 while the distinct-author count of the
bucket's items is 1. -/
theorem author_buckets_counterexample :
    aggregate_by_author [cAuthItem1, cAuthItem2] "engagement" =
      [{ author := "a", count := 2, engagement := 3, platform_count := 2 }] ∧
    ((([cAuthItem1, cAuthItem2].filter fun i => decide (authorOf i = "a")).map
        authorOf).toFinset.card = 1) ∧
    (2 : Nat) ≠ 1 := by
  refine ⟨by decide, by decide, by decide⟩

/-- C3 amended: day (and week/month, which reduce to day) and platform
buckets each report the item count, summed `total_engagement`, and
distinct-author count (`unique_authors`) of their group; author buckets
report the item count, summed engagement and distinct-*platform* count
(`platform_count`) of the author's items instead of a distinct-author
count. -/
theorem aggregation_buckets_amended (items : List Item) (metrics : String)
    (bp : PlatformBucket) (bd : DayBucket) (ba : AuthorBucket) :
    (bp ∈ aggregate_by_platform items metrics →
      bp.count = (items.filter fun i => decide (platformOf i = bp.platform)).length ∧
      bp.engagement =
        ((items.filter fun i => decide (platformOf i = bp.platform)).map engOf).sum ∧
      bp.unique_authors =
        ((items.filter fun i => decide (platformOf i = bp.platform)).map
          authorOf).toFinset.card) ∧
    (bd ∈ aggregate_by_day items metrics →
      bd.count = (items.filter fun i => decide (dayKeyOf i = some bd.date)).length ∧
      bd.engagement =
        ((items.filter fun i => decide (dayKeyOf i = some bd.date)).map engOf).sum ∧
      bd.unique_authors =
        ((items.filter fun i => decide (dayKeyOf i = some bd.date)).map
          authorOf).toFinset.card) ∧
    aggregate_by_week items metrics = aggregate_by_day items metrics ∧
    aggregate_by_month items metrics = aggregate_by_day items metrics ∧
    (ba ∈ aggregate_by_author items metrics →
      ba.count = (items.filter fun i => decide (authorOf i = ba.author)).length ∧
      ba.engagement =
        ((items.filter fun i => decide (authorOf i = ba.author)).map engOf).sum ∧
      ba.platform_count =
        ((items.filter fun i => decide (authorOf i = ba.author)).map
          platformOf).toFinset.card) := by
  refine ⟨?_, ?_, rfl, rfl, ?_⟩
  · intro hmem
    simp only [aggregate_by_platform] at hmem
    rw [mem_pySorted] at hmem
    obtain ⟨p, hp, hbp⟩ := List.mem_map.mp hmem
    obtain ⟨k, a⟩ := p
    obtain ⟨hc, he, hn⟩ := mem_pyDictFold (fun i => some (platformOf i)) authorOf items k a hp
    have hplat : bp.platform = k := by rw [← hbp]
    have hcnt : bp.count = a.count := by rw [← hbp]
    have heng : bp.engagement = a.engagement := by rw [← hbp]
    have hua : bp.unique_authors = a.names.card := by rw [← hbp]
    have hfe : (items.filter fun i => decide (some (platformOf i) = some k)) =
        (items.filter fun i => decide (platformOf i = k)) := by
      apply List.filter_congr
      intro x _
      simp
    refine ⟨?_, ?_, ?_⟩
    · rw [hcnt, hplat, hc, hfe]
    · rw [heng, hplat, he, hfe]
    · rw [hua, hplat, hn, hfe]
  · intro hmem
    simp only [aggregate_by_day] at hmem
    rw [mem_pySorted] at hmem
    obtain ⟨p, hp, hbp⟩ := List.mem_map.mp hmem
    obtain ⟨k, a⟩ := p
    obtain ⟨hc, he, hn⟩ := mem_pyDictFold dayKeyOf authorOf items k a hp
    have hdate : bd.date = k := by rw [← hbp]
    have hcnt : bd.count = a.count := by rw [← hbp]
    have heng : bd.engagement = a.engagement := by rw [← hbp]
    have hua : bd.unique_authors = a.names.card := by rw [← hbp]
    refine ⟨?_, ?_, ?_⟩
    · rw [hcnt, hdate, hc]
    · rw [heng, hdate, he]
    · rw [hua, hdate, hn]
  · intro hmem
    simp only [aggregate_by_author] at hmem
    have hmem2 := List.take_subset 100 _ hmem
    rw [mem_pySorted] at hmem2
    obtain ⟨p, hp, hbp⟩ := List.mem_map.mp hmem2
    obtain ⟨k, a⟩ := p
    obtain ⟨hc, he, hn⟩ := mem_pyDictFold (fun i => some (authorOf i)) platformOf items k a hp
    have hauth : ba.author = k := by rw [← hbp]
    have hcnt : ba.count = a.count := by rw [← hbp]
    have heng : ba.engagement = a.engagement := by rw [← hbp]
    have hpc : ba.platform_count = a.names.card := by rw [← hbp]
    have hfe : (items.filter fun i => decide (some (authorOf i) = some k)) =
        (items.filter fun i => decide (authorOf i = k)) := by
      apply List.filter_congr
      intro x _
      simp
    refine ⟨?_, ?_, ?_⟩
    · rw [hcnt, hauth, hc, hfe]
    · rw [heng, hauth, he, hfe]
    · rw [hpc, hauth, hn, hfe]

/-- C3 amended witness: the single platform bucket of a one-item list
reports the group's item count. -/
theorem aggregation_buckets_amended_witness :
    (⟨"x", 1, 1, 1⟩ : PlatformBucket).count =
      ([cAuthItem1].filter fun i => decide (platformOf i = "x")).length :=
  ((aggregation_buckets_amended [cAuthItem1] "engagement" ⟨"x", 1, 1, 1⟩
      ⟨"", 0, 0, 0⟩ ⟨"", 0, 0, 0⟩).1 (by decide)).1

end Keypick
